import Mathlib

/-!
Shallow embedding of `katappa_compiler.py`, a four-stage single-pass compiler
(tokenize, categorize, analyze, generate) for the "Katappa" DSL.

Python machine-level behaviour is modelled explicitly:
* `PstRow` objects become the `Row` structure (`mem_location : Option String`
  models Python's `None`-initialised attribute, and rendering an unset
  location in an f-string yields the text `"None"`, as `str(None)` does);
* Python dictionaries (`symbol_table`, `string_literals`) become association
  lists in insertion order, matching Python 3.7+ dict iteration order;
* a Python `IndexError` from an out-of-range list subscript (and `list.pop`
  on an empty list) is the `Err.indexError` outcome, and a `KeyError` from a
  missing dict key is `Err.keyError`; both escape the compiler's own
  `CompilationError` taxonomy, exactly as in the Python program where
  `main` catches them as "unexpected" errors;
* `CompilationError(message, line)` is `Err.comp message line`;
* the recursive generator and the scanner are written with an explicit fuel
  parameter so that they are structurally recursive and computable; the
  entry points supply fuel strictly larger than the input length, which is
  proved sufficient (`scanT_no_fuelOut`, `genBF_no_fuelOut`), so the
  artificial `Err.fuelOut` outcome is unreachable from the entry points.
-/

/-- Outcome of a failing compilation step. `comp` is the program's own
`CompilationError(message, line)`; `indexError` and `keyError` model Python
`IndexError`/`KeyError` escaping the taxonomy; `fuelOut` is the artificial
out-of-fuel outcome, proved unreachable from the entry points. -/
inductive Err where
  | comp (msg : String) (line : Nat)
  | indexError
  | keyError
  | fuelOut
deriving Repr, DecidableEq

/-- A `PstRow`: lexeme, category, source line, and the storage location
attached by the analyzer (`None` until resolved). -/
structure Row where
  lexeme : String
  category : String
  line : Nat
  mem_location : Option String := none
deriving Repr, DecidableEq

/-- The per-run compilation context: the fields of the Python `Compiler`
object that are threaded through analysis and generation. -/
structure Ctx where
  symbol_table : List (String × String) := []
  string_literals : List (String × String) := []
  stack_size : Nat := 0
  label_count : Nat := 0
  loop_end_stack : List String := []
deriving Repr, DecidableEq

/-- The fresh context built by `Compiler.__init__` for each run. -/
def initCtx : Ctx := {}

/-- `_get_unique_label`: increment the counter and format `.L_{pfx}_{n}`. -/
def getLabel (ctx : Ctx) (pfx : String) : String × Ctx :=
  let n := ctx.label_count + 1
  (s!".L_{pfx}_{n}", { ctx with label_count := n })

/-- Rendering a `mem_location` inside an f-string: Python prints `None`
for an unresolved location. -/
def locStr : Option String → String
  | none => "None"
  | some s => s

/-! ## Stage 1: tokenizer (`_tokenize`)

The Python scanner is a single `re.finditer` pass over an alternation of
patterns tried in a fixed priority order; since the last alternative
matches any character, the scan consumes the input left to right one
maximal-munch token at a time.  `scanT` mirrors that: at each position the
alternatives are tried in the regex's order, each matching greedily. -/

/-- `[a-zA-Z0-9_]`, the identifier characters after the `.` sigil. -/
def isWordChar (c : Char) : Bool := c.isAlpha || c.isDigit || c == '_'

/-- The whitespace characters of `\s` (ASCII). -/
def isSpaceC (c : Char) : Bool :=
  c == ' ' || c == '\t' || c == '\n' || c == '\r' || c == '\x0b' || c == '\x0c'

/-- The single-character operators `[=+\-*/><]`. -/
def isOpChar (c : Char) : Bool :=
  c == '=' || c == '+' || c == '-' || c == '*' || c == '/' || c == '>' || c == '<'

/-- The delimiters `[:{};]`. -/
def isDelimC (c : Char) : Bool :=
  c == ':' || c == '\x7b' || c == '\x7d' || c == ';'

/-- Number of newline characters in a matched span (the scanner advances
the line counter by this much). -/
def newlines (l : List Char) : Nat := (l.filter (· == '\n')).length

/-- One left-to-right scan of the source characters.  `line` is the current
line number.  Each step consumes at least one character, so fuel larger
than the input length never runs out. -/
def scanT : Nat → List Char → Nat → Except Err (List (String × Nat))
  | 0, _, _ => .error .fuelOut
  | _ + 1, [], _ => .ok []
  | fuel + 1, c :: cs, line =>
    if c == '"' then
      -- StringLiteral: "[^"]*" — fails (falls to Mismatch) without a closing quote
      let body := cs.takeWhile (· != '"')
      match cs.dropWhile (· != '"') with
      | '"' :: rest =>
        let lex := String.mk ('"' :: (body ++ ['"']))
        (scanT fuel rest (line + newlines body)).map (fun ts => (lex, line) :: ts)
      | _ => .error (.comp s!"Unexpected character: '{c}'" line)
    else if c == '.' then
      -- Variable: \.[a-zA-Z0-9_]+ — needs at least one identifier character
      let ident := cs.takeWhile isWordChar
      if ident.isEmpty then .error (.comp s!"Unexpected character: '{c}'" line)
      else (scanT fuel (cs.dropWhile isWordChar) line).map
        (fun ts => (String.mk ('.' :: ident), line) :: ts)
    else if c.isDigit then
      -- NumericLiteral: -?\d+ (digit-first form)
      let ds := cs.takeWhile Char.isDigit
      (scanT fuel (cs.dropWhile Char.isDigit) line).map
        (fun ts => (String.mk (c :: ds), line) :: ts)
    else if c == '-' && (match cs with | d :: _ => d.isDigit | [] => false) then
      -- NumericLiteral: -?\d+ (signed form; a bare '-' is an operator instead)
      let ds := cs.takeWhile Char.isDigit
      (scanT fuel (cs.dropWhile Char.isDigit) line).map
        (fun ts => (String.mk ('-' :: ds), line) :: ts)
    else if c.isAlpha then
      -- Keyword: [a-zA-Z]+
      let ls := cs.takeWhile Char.isAlpha
      (scanT fuel (cs.dropWhile Char.isAlpha) line).map
        (fun ts => (String.mk (c :: ls), line) :: ts)
    else if (c == '=' || c == '!' || c == '>' || c == '<')
            && (match cs with | '=' :: _ => true | _ => false) then
      -- Operator: the two-character forms ==, !=, >=, <= are tried first
      (scanT fuel (cs.drop 1) line).map
        (fun ts => (String.mk [c, '='], line) :: ts)
    else if isOpChar c then
      (scanT fuel cs line).map (fun ts => (String.mk [c], line) :: ts)
    else if isDelimC c then
      (scanT fuel cs line).map (fun ts => (String.mk [c], line) :: ts)
    else if isSpaceC c then
      -- Whitespace: \s+ — discarded, line counter advanced
      let sp := cs.takeWhile isSpaceC
      scanT fuel (cs.dropWhile isSpaceC) (line + newlines (c :: sp))
    else if c == '#' && (match cs with | '#' :: _ => true | _ => false) then
      -- Comment: ##.* — discarded (the newline itself is left for \s+)
      scanT fuel (cs.dropWhile (· != '\n')) line
    else
      -- Mismatch: any other character is a LexError
      .error (.comp s!"Unexpected character: '{c}'" line)

/-- Stage 1 entry point: scan the whole source starting at line 1. -/
def tokenize (src : String) : Except Err (List (String × Nat)) :=
  scanT (src.length + 1) src.data 1

/-! ## Stage 2: classifier (`_stage2_categorize`) -/

/-- The fixed keyword/operator/delimiter table of `LanguageSpec.KEYWORDS`. -/
def KEYWORDS (s : String) : Option String :=
  if s = "num" then some "Type"
  else if s = "let" then some "Mutability"
  else if s = "fix" then some "Mutability"
  else if s = "when" then some "Control"
  else if s = "other" then some "Control"
  else if s = "loop" then some "Control"
  else if s = "stop" then some "Control"
  else if s = "print" then some "Io"
  else if s = ":" then some "Delimiter"
  else if s = "=" then some "Operator"
  else if s = "+" then some "Operator"
  else if s = "-" then some "Operator"
  else if s = "*" then some "Operator"
  else if s = "/" then some "Operator"
  else if s = "==" then some "Operator"
  else if s = "!=" then some "Operator"
  else if s = ">" then some "Operator"
  else if s = "<" then some "Operator"
  else if s = ">=" then some "Operator"
  else if s = "<=" then some "Operator"
  else if s = "\x7b" then some "Delimiter"
  else if s = "\x7d" then some "Delimiter"
  else if s = ";" then some "Delimiter"
  else none

/-- Python's `str.isdigit` on our lexemes: nonempty and all digits. -/
def isAllDigits (s : String) : Bool := !s.data.isEmpty && s.data.all Char.isDigit

/-- `lexeme.startswith(c)` for a single character. -/
def headIs (s : String) (c : Char) : Bool :=
  match s.data with
  | [] => false
  | d :: _ => d == c

/-- Classify one lexeme exactly as `_stage2_categorize` does (rule order:
sigil, numeric, quote, keyword table, else `UnknownSymbolError`). -/
def categoryOf (lex : String) (line : Nat) : Except Err String :=
  if headIs lex '.' then .ok "Variable"
  else if isAllDigits lex || (headIs lex '-' && isAllDigits (String.mk (lex.data.drop 1))) then
    .ok "NumericLiteral"
  else if headIs lex '"' then .ok "StringLiteral"
  else match KEYWORDS lex with
    | some cat => .ok cat
    | none => .error (.comp s!"Unknown symbol '{lex}'" line)

/-- Stage 2: tag every token with its category, building the PST. -/
def categorize : List (String × Nat) → Except Err (List Row)
  | [] => .ok []
  | (lex, line) :: ts =>
    match categoryOf lex line with
    | .error e => .error e
    | .ok cat => (categorize ts).map (fun rs => ⟨lex, cat, line, none⟩ :: rs)

/-! ## Stage 3: analyzer (`_stage3_analyze`) -/

/-- Round the frame size up to the next multiple of 16, as done after the
analysis pass. -/
def roundUp16 (n : Nat) : Nat := if n % 16 ≠ 0 then n + (16 - n % 16) else n

/-- The analysis pass: a left-to-right cursor over the PST resolving
declarations, string literals and variable references.  Returns the final
context together with the PST rows with `mem_location` filled in (the
Python version mutates the rows in place). -/
def analyzeGo (ctx : Ctx) : List Row → Except Err (Ctx × List Row)
  | [] => .ok (ctx, [])
  | row :: rest =>
    if row.category = "Mutability" then
      match rest with
      | var :: colon :: tyKw :: semi :: rest' =>
        if var.category = "Variable" ∧ colon.lexeme = ":" ∧
           tyKw.category = "Type" ∧ semi.lexeme = ";" then
          if (ctx.symbol_table.lookup var.lexeme).isSome then
            .error (.comp s!"Variable '{var.lexeme}' already declared." var.line)
          else
            let size := ctx.stack_size + 8
            let loc := s!"-{size}(%rbp)"
            let var' : Row := { var with mem_location := some loc }
            let ctx2 := { ctx with
              stack_size := size
              symbol_table := ctx.symbol_table ++ [(var.lexeme, loc)] }
            (analyzeGo ctx2 rest').map
              (fun p => (p.1, row :: var' :: colon :: tyKw :: semi :: p.2))
        else .error (.comp "Invalid variable declaration." row.line)
      | _ =>
        -- fewer than four tokens follow: Python's tuple unpacking raises
        -- ValueError, caught and re-raised as this CompilationError
        .error (.comp "Incomplete variable declaration." row.line)
    else if row.category = "StringLiteral" then
      if (ctx.string_literals.lookup row.lexeme).isSome then
        (analyzeGo ctx rest).map (fun p => (p.1, row :: p.2))
      else
        let (lbl, ctx') := getLabel ctx "STR"
        (analyzeGo { ctx' with
            string_literals := ctx'.string_literals ++ [(row.lexeme, lbl)] } rest).map
          (fun p => (p.1, row :: p.2))
    else if row.category = "Variable" then
      match ctx.symbol_table.lookup row.lexeme with
      | none => .error (.comp s!"Use of undeclared variable '{row.lexeme}'" row.line)
      | some loc =>
        (analyzeGo ctx rest).map
          (fun p => (p.1, { row with mem_location := some loc } :: p.2))
    else (analyzeGo ctx rest).map (fun p => (p.1, row :: p.2))

/-- Stage 3 entry point: run the pass from the fresh context and round the
accumulated frame size up to a 16-byte boundary. -/
def analyze (rows : List Row) : Except Err (Ctx × List Row) :=
  (analyzeGo initCtx rows).map
    (fun p => ({ p.1 with stack_size := roundUp16 p.1.stack_size }, p.2))

/-! ## Stage 4: generator (`_generate_assembly_for_block`) -/

/-- Brace-depth scan: starting just after an opening brace (depth 1),
consume tokens, adjusting the depth on `{`/`}`, and return the number of
tokens consumed up to and including the matching close; `none` when the
range is exhausted first (the Python loop then raises
`UnmatchedBraceError`). -/
def scanBraces : List Row → Nat → Option Nat
  | [], _ => none
  | r :: rest, depth =>
    let depth' := if r.lexeme = "\x7b" then depth + 1
                  else if r.lexeme = "\x7d" then depth - 1
                  else depth
    if depth' = 0 then some 1
    else match scanBraces rest depth' with
         | none => none
         | some n => some (n + 1)

/-- The arithmetic operator table `op_map = {'+': addq, '-': subq, '*': imulq}`. -/
def op_map (s : String) : Option String :=
  if s = "+" then some "addq"
  else if s = "-" then some "subq"
  else if s = "*" then some "imulq"
  else none

/-- The negated-branch table
`jump_map = {"==": jne, "!=": je, ">": jle, "<": jge, ">=": jl, "<=": jg}`.
A comparator outside the table is a Python `KeyError`. -/
def jump_map (s : String) : Option String :=
  if s = "==" then some "jne"
  else if s = "!=" then some "je"
  else if s = ">" then some "jle"
  else if s = "<" then some "jge"
  else if s = ">=" then some "jl"
  else if s = "<=" then some "jg"
  else none

/-- Prepend the lines emitted for one statement to the result of
generating the rest of the block. -/
def withAsm (pre : List String) (r : Except Err (Ctx × List String)) :
    Except Err (Ctx × List String) :=
  r.map (fun p => (p.1, pre ++ p.2))

/-- Lexeme of an optional row (bounds-checked lookahead). -/
def optLex (r : Option Row) : Option String := r.map Row.lexeme

/-- Category of an optional row (bounds-checked lookahead). -/
def optCat (r : Option Row) : Option String := r.map Row.category

/-- The recursive block generator.  `l` is the current block's row list and
`i` the cursor of the Python `while` loop; sub-blocks are generated by a
recursive call on the brace-delimited slice with the cursor reset to 0.
Every step either stops or recurses with strictly smaller `l.length - i`
(or a strictly shorter list), so fuel `l.length + 1` suffices
(`genBF_no_fuelOut`). -/
def genBF : Nat → Ctx → List Row → Nat → Except Err (Ctx × List String)
  | 0, _, _, _ => .error .fuelOut
  | fuel + 1, ctx, l, i =>
    match l.get? i with
    | none => .ok (ctx, [])
    | some row =>
      if row.category = "Mutability" then
        -- declarations were handled by the analyzer: skip their 5 tokens
        genBF fuel ctx l (i + 5)
      else if row.category = "Variable" ∧ optLex (l.get? (i + 1)) = some "=" then
        -- assignment statement
        match l.get? (i + 2) with
        | none => .error .indexError
        | some val =>
          let rl := row.lexeme
          let cmt := s!"\n    # Katappa: {rl} = ..."
          if val.category = "NumericLiteral" then
            let vl := val.lexeme
            let tgt := locStr row.mem_location
            withAsm [cmt, s!"    movq    ${vl}, {tgt}"] (genBF fuel ctx l (i + 3))
          else if val.category = "Variable" ∧ optCat (l.get? (i + 3)) = some "Operator" then
            match l.get? (i + 3), l.get? (i + 4) with
            | some op, some op2 =>
              let vloc := locStr val.mem_location
              let a1 := s!"    movq    {vloc}, %rax"
              let roi? : Except Err (List String × String) :=
                if op2.category = "Variable" then
                  let oloc := locStr op2.mem_location
                  .ok ([s!"    movq    {oloc}, %rbx"], "%rbx")
                else if op2.category = "NumericLiteral" then
                  let ol := op2.lexeme
                  .ok ([], s!"${ol}")
                else .error (.comp "Invalid right-hand side in arithmetic expression." op.line)
              match roi? with
              | .error e => .error e
              | .ok (pre2, roi) =>
                let opl := op.lexeme
                let opLines : List String :=
                  match op_map opl with
                  | some mn => [s!"    {mn}   {roi}, %rax"]
                  | none =>
                    if opl = "/" then
                      (if op2.category = "NumericLiteral" then
                        let ol := op2.lexeme
                        [s!"    movq ${ol}, %rbx"]
                       else []) ++ ["    cqto", "    idivq   %rbx"]
                    else []
                let tgt := locStr row.mem_location
                withAsm ([cmt, a1] ++ pre2 ++ opLines ++ [s!"    movq    %rax, {tgt}"])
                  (genBF fuel ctx l (i + 5))
            | _, _ => .error .indexError
          else .error (.comp "Invalid assignment expression." row.line)
      else if row.lexeme = "print" then
        match l.get? (i + 1) with
        | none => .error .indexError
        | some val =>
          let vl := val.lexeme
          let cmt := s!"\n    # Katappa: print {vl};"
          let argLines? : Except Err (List String) :=
            if val.category = "Variable" then
              let loc := locStr val.mem_location
              .ok ["    leaq    .LC_NUM_FMT(%rip), %rcx", s!"    movq    {loc}, %rdx"]
            else if val.category = "StringLiteral" then
              match ctx.string_literals.lookup vl with
              | none => .error .keyError
              | some lbl => .ok [s!"    leaq    {lbl}(%rip), %rcx"]
            else .ok []
          match argLines? with
          | .error e => .error e
          | .ok argLines =>
            withAsm ([cmt] ++ argLines ++
                ["    subq    $32, %rsp", "    movq    $0, %rax",
                 "    call    printf", "    addq    $32, %rsp"])
              (genBF fuel ctx l (i + 2))
      else if row.lexeme = "when" then
        match l.get? (i + 1), l.get? (i + 2), l.get? (i + 3) with
        | some var1, some op, some op2 =>
          let (elseL, ctx1) := getLabel ctx "ELSE"
          let (endL, ctx2) := getLabel ctx1 "END_WHEN"
          let v1 := var1.lexeme
          let opl := op.lexeme
          let o2 := op2.lexeme
          let cmt := s!"\n    # Katappa: when {v1} {opl} {o2} \x7b...\x7d"
          let mloc := locStr var1.mem_location
          let a1 := s!"    movq    {mloc}, %rax"
          let cmp? : Except Err String :=
            if op2.category = "Variable" then
              let oloc := locStr op2.mem_location
              .ok s!"    cmpq    {oloc}, %rax"
            else if op2.category = "NumericLiteral" then
              .ok s!"    cmpq    ${o2}, %rax"
            else .error (.comp "Invalid right-hand side in when condition." op.line)
          match cmp? with
          | .error e => .error e
          | .ok cmpLine =>
            match jump_map opl with
            | none => .error .keyError
            | some j =>
              match scanBraces (l.drop (i + 5)) 1 with
              | none =>
                match l.get? (i + 4) with
                | none => .error .indexError
                | some b => .error (.comp "Unmatched '\x7b' bracket." b.line)
              | some n =>
                let whenBlock := (l.drop (i + 5)).take (n - 1)
                match genBF fuel ctx2 whenBlock 0 with
                | .error e => .error e
                | .ok (ctx3, blockAsm) =>
                  let j2 := i + 5 + n
                  if optLex (l.get? j2) = some "other" then
                    match scanBraces (l.drop (j2 + 2)) 1 with
                    | none =>
                      match l.get? (j2 + 1) with
                      | none => .error .indexError
                      | some b => .error (.comp "Unmatched '\x7b' bracket." b.line)
                    | some m =>
                      let otherBlock := (l.drop (j2 + 2)).take (m - 1)
                      match genBF fuel ctx3 otherBlock 0 with
                      | .error e => .error e
                      | .ok (ctx4, otherAsm) =>
                        withAsm ([cmt, a1, cmpLine, s!"    {j} {elseL}"] ++ blockAsm ++
                            [s!"    jmp {endL}", s!"{elseL}:"] ++ otherAsm ++ [s!"{endL}:"])
                          (genBF fuel ctx4 l (j2 + 2 + m))
                  else
                    withAsm ([cmt, a1, cmpLine, s!"    {j} {elseL}"] ++ blockAsm ++
                        [s!"    jmp {endL}", s!"{elseL}:", s!"{endL}:"])
                      (genBF fuel ctx3 l j2)
        | _, _, _ => .error .indexError
      else if row.lexeme = "loop" then
        let (startL, ctx1) := getLabel ctx "LOOP_START"
        let (endL, ctx2) := getLabel ctx1 "LOOP_END"
        let ctx3 := { ctx2 with loop_end_stack := endL :: ctx2.loop_end_stack }
        match scanBraces (l.drop (i + 2)) 1 with
        | none =>
          match l.get? (i + 1) with
          | none => .error .indexError
          | some b => .error (.comp "Unmatched '\x7b' bracket." b.line)
        | some n =>
          let body := (l.drop (i + 2)).take (n - 1)
          match genBF fuel ctx3 body 0 with
          | .error e => .error e
          | .ok (ctx4, bodyAsm) =>
            -- `self.loop_end_stack.pop()`: IndexError on an empty list
            match ctx4.loop_end_stack with
            | [] => .error .indexError
            | _ :: tl =>
              withAsm ([s!"\n{startL}:"] ++ bodyAsm ++ [s!"    jmp {startL}", s!"{endL}:"])
                (genBF fuel { ctx4 with loop_end_stack := tl } l (i + 2 + n))
      else if row.lexeme = "stop" then
        match ctx.loop_end_stack with
        | [] => .error (.comp "'stop' can only be used inside a loop." row.line)
        | top :: _ => withAsm [s!"    jmp {top}"] (genBF fuel ctx l (i + 2))
      else
        -- any other token at statement position is skipped silently
        genBF fuel ctx l (i + 1)

/-- Generate the text of the whole resolved token sequence. -/
def genAssembly (ctx : Ctx) (rows : List Row) : Except Err (Ctx × List String) :=
  genBF (rows.length + 1) ctx rows 0

/-! ## Top-level assembly (`_generate_toplevel_assembly`) -/

/-- The fixed numeric-format constant line (the two characters `\` `n` are
literal in the emitted text, as in the Python source `"%lld\\n"`). -/
def numFmtLine : String := ".LC_NUM_FMT: .string \"%lld\\n\""

/-- The read-only data section: one directive per registered string
constant (in insertion order), then the fixed numeric-format constant.
The `.section .rodata` header is emitted only when at least one string
literal was registered. -/
def mkDataSection (strs : List (String × String)) : List String :=
  (if strs.isEmpty then [] else
    ".section .rodata" ::
      strs.map (fun p => let lbl := p.2; let lit := p.1; s!"{lbl}: .string {lit}")) ++
    [numFmtLine]

/-- The entry routine's prologue; the frame reservation line is present
exactly when the computed frame size is positive. -/
def mkPrologue (n : Nat) : List String :=
  [".section .text", ".globl main", "\nmain:", "    pushq   %rbp",
   "    movq    %rsp, %rbp",
   if n > 0 then s!"    subq    ${n}, %rsp" else ""]

/-- The epilogue: zero status, restore caller frame, return. -/
def mainEpilogue : List String := ["\n    movq    $0, %rax", "    leave", "    ret"]

/-- The full pipeline, producing the emitted assembly as a list of lines. -/
def compileLines (src : String) : Except Err (List String) := do
  let toks ← tokenize src
  let rows ← categorize toks
  let (ctx, rows') ← analyze rows
  let (_, text) ← genAssembly ctx rows'
  return mkDataSection ctx.string_literals ++ mkPrologue ctx.stack_size ++
    text ++ mainEpilogue

/-- `Compiler(source).compile()`: one run with a fresh context, producing
the final assembly text (lines joined by newlines, trailing newline). -/
def compile (src : String) : Except Err String :=
  (compileLines src).map (fun ls => String.intercalate "\n" ls ++ "\n")

/-! ## Inversion helpers -/

theorem withAsm_ok {pre : List String} {r : Except Err (Ctx × List String)}
    {p : Ctx × List String} :
    withAsm pre r = Except.ok p ↔
      ∃ c a, r = Except.ok (c, a) ∧ p = (c, pre ++ a) := by
  cases r with
  | error e => simp [withAsm, Except.map]
  | ok q =>
    cases q with
    | mk c a =>
      simp only [withAsm, Except.map, Except.ok.injEq]
      constructor
      · intro h; exact ⟨c, a, rfl, h.symm⟩
      · rintro ⟨c', a', he, hp⟩
        cases he; cases hp; rfl

theorem withAsm_err {pre : List String} {r : Except Err (Ctx × List String)}
    {e : Err} : withAsm pre r = Except.error e ↔ r = Except.error e := by
  cases r with
  | error e' => simp [withAsm, Except.map]
  | ok q => simp [withAsm, Except.map]

theorem exceptMap_err {α β : Type} {f : α → β} {r : Except Err α} {e : Err} :
    r.map f = Except.error e ↔ r = Except.error e := by
  cases r with
  | error e' => simp [Except.map]
  | ok v => simp [Except.map]

theorem getLabel_stack {ctx : Ctx} {p lbl : String} {c' : Ctx}
    (h : getLabel ctx p = (lbl, c')) : c'.loop_end_stack = ctx.loop_end_stack := by
  simp only [getLabel] at h
  cases h; rfl

/-! ## The loop-label stack invariant -/

set_option maxHeartbeats 2000000 in
/-- Generating any block leaves the loop-label stack exactly as it was:
each loop pushes its end label before its body and pops it afterwards, and
no other statement touches the stack. -/
theorem genBF_stack (fuel : Nat) :
    ∀ ctx l i ctx' asm, genBF fuel ctx l i = Except.ok (ctx', asm) →
      ctx'.loop_end_stack = ctx.loop_end_stack := by
  induction fuel with
  | zero => intro ctx l i ctx' asm h; simp [genBF] at h
  | succ fuel ih =>
    intro ctx l i ctx' asm h
    simp only [genBF] at h
    repeat' split at h
    all_goals (try (cases h))
    all_goals (try rfl)
    all_goals
      (try (obtain ⟨c, a, hr, hp⟩ := withAsm_ok.mp h; injection hp with hp1 hp2; subst hp1;
            exact ih _ _ _ _ _ hr))
    all_goals (try (exact ih _ _ _ _ _ h))
    -- remaining: when-with-other, when-without-other, loop
    · rename_i x2 c41 oasm1 hwb hoth x1 n2 hsb2 x0 c4 oasm0 hob
      obtain ⟨c, a, hr, hp⟩ := withAsm_ok.mp h
      injection hp with hp1 hp2
      subst hp1
      have e1 := ih _ _ _ _ _ hwb
      have e2 := ih _ _ _ _ _ hob
      have e3 := ih _ _ _ _ _ hr
      exact e3.trans (e2.trans e1)
    · rename_i x0 c4 oasm hwb hno
      obtain ⟨c, a, hr, hp⟩ := withAsm_ok.mp h
      injection hp with hp1 hp2
      subst hp1
      have e1 := ih _ _ _ _ _ hwb
      have e3 := ih _ _ _ _ _ hr
      exact e3.trans e1
    · rename_i x2 n2 hsb x1 c4 oasm hbody x0 hd tl hpop
      obtain ⟨c, a, hr, hp⟩ := withAsm_ok.mp h
      injection hp with hp1 hp2
      subst hp1
      have e1 := ih _ _ _ _ _ hbody
      have e4 : hd :: tl =
          (getLabel (getLabel ctx "LOOP_START").2 "LOOP_END").1 :: ctx.loop_end_stack :=
        hpop ▸ e1
      injection e4 with e5 e6
      exact (ih _ _ _ _ _ hr).trans e6

/-! ## Error classification of the generator -/

/-- The `CompilationError` messages the generator itself can raise
(`InvalidExpressionError`, `InvalidConditionError`, `StopOutsideLoopError`,
`UnmatchedBraceError` in the spec's taxonomy). -/
def genMsg (m : String) : Prop :=
  m = "Invalid assignment expression." ∨
  m = "Invalid right-hand side in arithmetic expression." ∨
  m = "Invalid right-hand side in when condition." ∨
  m = "'stop' can only be used inside a loop." ∨
  m = "Unmatched '\x7b' bracket."

/-- Errors the generator can produce: its own taxonomy messages, or the
Python `IndexError`/`KeyError` escapes. -/
def isGenErr : Err → Prop
  | .comp m _ => genMsg m
  | .indexError => True
  | .keyError => True
  | .fuelOut => False
set_option maxHeartbeats 2000000 in
theorem genBF_err_taxonomy (fuel : Nat) :
    ∀ ctx l i e, genBF fuel ctx l i = Except.error e →
      isGenErr e ∨ e = Err.fuelOut := by
  induction fuel with
  | zero =>
    intro ctx l i e h
    simp only [genBF] at h
    injection h with he
    exact Or.inr he.symm
  | succ fuel ih =>
    intro ctx l i e h
    simp only [genBF] at h
    repeat' split at h
    all_goals (try (cases h))
    all_goals (try (exact Or.inl trivial))
    all_goals (try (exact ih _ _ _ _ h))
    all_goals (try (simp only [withAsm_err] at h; exact ih _ _ _ _ h))
    all_goals (try (apply Or.inl; simp [isGenErr, genMsg]; done))
    all_goals
      (try ((repeat' split at h) <;>
        first
          | simp at h
          | (cases h; exact Or.inl trivial)
          | (cases h; apply Or.inl; simp [isGenErr, genMsg]; done)))
    all_goals (try (rename_i heq2; exact ih _ _ _ _ heq2))
    all_goals
      (rename_i heq2;
        (repeat' split at heq2) <;>
          first
            | (simp at heq2; done)
            | (cases heq2; exact Or.inl trivial)
            | (cases heq2; apply Or.inl; simp [isGenErr, genMsg]; done))

set_option maxHeartbeats 2000000 in
theorem genBF_no_fuelOut (fuel : Nat) :
    ∀ ctx l i, l.length - i < fuel → genBF fuel ctx l i ≠ Except.error Err.fuelOut := by
  induction fuel with
  | zero => intro ctx l i hb; exact absurd hb (by omega)
  | succ fuel ih =>
    intro ctx l i hb h
    by_cases hil : i < l.length
    · simp only [genBF] at h
      repeat' split at h
      all_goals (try (refine ih _ _ _ ?_ h; omega))
      all_goals (try (simp only [withAsm_err] at h; refine ih _ _ _ ?_ h; omega))
      all_goals (try (simp at h))
      all_goals (try (subst h))
      all_goals
        (try (rename_i heq2; refine ih _ _ _ ?_ heq2;
              simp only [List.length_take, List.length_drop, Nat.sub_zero]; omega))
      all_goals
        (rename_i heq2;
          (repeat' split at heq2) <;> simp at heq2)
    · have hnone : l.get? i = none := by
        rw [List.get?_eq_none]
        omega
      simp only [genBF, hnone] at h
      simp at h

def lexMsg (m : String) : Prop := ∃ c : Char, m = s!"Unexpected character: '{c}'"

theorem dropWhileLen (p : Char → Bool) : ∀ l : List Char, (l.dropWhile p).length ≤ l.length := by
  intro l
  induction l with
  | nil => simp [List.dropWhile]
  | cons c cs ih =>
    simp only [List.dropWhile]
    split
    · exact le_trans ih (by simp)
    · simp

set_option maxHeartbeats 2000000 in
theorem scanT_err_taxonomy (fuel : Nat) :
    ∀ cs line e, scanT fuel cs line = Except.error e →
      (∃ m ln, e = Err.comp m ln ∧ lexMsg m) ∨ e = Err.fuelOut := by
  induction fuel with
  | zero =>
    intro cs line e h
    simp only [scanT] at h
    injection h with he
    exact Or.inr he.symm
  | succ fuel ih =>
    intro cs line e h
    match cs with
    | [] => simp [scanT] at h
    | c :: cs' =>
      simp only [scanT] at h
      repeat' split at h
      all_goals (try (simp only [exceptMap_err] at h))
      all_goals (try (exact ih _ _ _ h))
      all_goals (cases h; exact Or.inl ⟨_, _, rfl, ⟨c, rfl⟩⟩)

set_option maxHeartbeats 2000000 in
theorem scanT_no_fuelOut (fuel : Nat) :
    ∀ cs line, cs.length < fuel → scanT fuel cs line ≠ Except.error Err.fuelOut := by
  induction fuel with
  | zero => intro cs line hb; exact absurd hb (by omega)
  | succ fuel ih =>
    intro cs line hb h
    match cs with
    | [] => simp [scanT] at h
    | c :: cs' =>
      have hcs : cs'.length < fuel := by
        simp only [List.length_cons] at hb
        omega
      simp only [scanT] at h
      repeat' split at h
      all_goals (try (simp only [exceptMap_err] at h))
      all_goals (try (simp at h))
      all_goals (try (exact ih _ _ hcs h))
      all_goals (try (refine ih _ _ ?_ h; exact lt_of_le_of_lt (dropWhileLen _ _) hcs))
      all_goals (try (refine ih _ _ ?_ h; simp only [List.length_tail, List.length_drop]; omega))
      all_goals
        (rename_i rest2 heq2; refine ih _ _ ?_ h;
         have hdw := dropWhileLen (fun x => x != '"') cs'
         rw [heq2] at hdw
         simp only [List.length_cons] at hdw
         omega)

theorem categorize_err_taxonomy :
    ∀ ts e, categorize ts = Except.error e →
      ∃ (s : String) (ln : Nat), e = Err.comp (toString "Unknown symbol '" ++ toString s ++ toString "'") ln := by
  intro ts
  induction ts with
  | nil => intro e h; simp [categorize] at h
  | cons t ts ih =>
    intro e h
    obtain ⟨lex, line⟩ := t
    simp only [categorize] at h
    split at h
    · rename_i e2 heq2
      cases h
      simp only [categoryOf] at heq2
      repeat' split at heq2
      all_goals (try (simp at heq2))
      all_goals (cases heq2; exact ⟨lex, line, rfl⟩)
    · simp only [exceptMap_err] at h
      exact ih _ h

def anaMsg (m : String) : Prop :=
  m = "Invalid variable declaration." ∨
  m = "Incomplete variable declaration." ∨
  (∃ s : String, m = toString "Variable '" ++ toString s ++ toString "' already declared.") ∨
  (∃ s : String, m = toString "Use of undeclared variable '" ++ toString s ++ toString "'")

set_option maxHeartbeats 1000000 in
theorem analyzeGo_err_taxonomy (n : Nat) :
    ∀ rows ctx e, rows.length ≤ n → analyzeGo ctx rows = Except.error e →
      ∃ m ln, e = Err.comp m ln ∧ anaMsg m := by
  induction n with
  | zero =>
    intro rows ctx e hlen h
    match rows with
    | [] => simp [analyzeGo] at h
    | r :: rest => simp at hlen
  | succ n ih =>
    intro rows ctx e hlen h
    rcases rows with _ | ⟨r1, _ | ⟨r2, _ | ⟨r3, _ | ⟨r4, _ | ⟨r5, rest'⟩⟩⟩⟩⟩
    all_goals (try (simp [analyzeGo] at h; done))
    all_goals (rw [analyzeGo.eq_def] at h; simp only [] at h; repeat' split at h)
    all_goals (try (simp at h))
    all_goals
      (try (simp only [exceptMap_err] at h; refine ih _ _ _ ?_ h;
            simp only [List.length_cons] at hlen ⊢; omega))
    all_goals
      (try (simp only [exceptMap_err] at h; refine ih _ _ _ ?_ h;
            simp only [List.length_cons, List.length_nil] at hlen ⊢; omega))
    all_goals
      (cases h; refine ⟨_, _, rfl, ?_⟩;
       first
         | exact Or.inl rfl
         | exact Or.inr (Or.inl rfl)
         | exact Or.inr (Or.inr (Or.inl ⟨_, rfl⟩))
         | exact Or.inr (Or.inr (Or.inr ⟨_, rfl⟩)))

theorem exceptMap_ok {α β : Type} {f : α → β} {r : Except Err α} {b : β} :
    r.map f = Except.ok b ↔ ∃ a, r = Except.ok a ∧ f a = b := by
  cases r with
  | error e => simp [Except.map]
  | ok v =>
    simp only [Except.map, Except.ok.injEq]
    constructor
    · intro h; exact ⟨v, rfl, h⟩
    · rintro ⟨a, ha, hb⟩; cases ha; exact hb

theorem lookup_none_not_mem {k : String} :
    ∀ l : List (String × String), l.lookup k = none → k ∉ l.map Prod.fst := by
  intro l
  induction l with
  | nil => intro _ h; simp at h
  | cons p rest ih =>
    intro hl hmem
    simp only [List.lookup] at hl
    split at hl
    · cases hl
    · rename_i hne
      simp only [List.map, List.mem_cons] at hmem
      rcases hmem with h1 | h2
      · simp [h1] at hne
      · exact ih hl h2

theorem roundUp16_dvd (n : Nat) : 16 ∣ roundUp16 n := by
  simp only [roundUp16]
  split
  · rename_i h
    omega
  · rename_i h
    omega

set_option maxHeartbeats 1000000 in
theorem analyzeGo_stack_no_decl (n : Nat) :
    ∀ rows ctx ctx' rows', rows.length ≤ n →
      (∀ r ∈ rows, r.category ≠ "Mutability") →
      analyzeGo ctx rows = Except.ok (ctx', rows') →
      ctx'.stack_size = ctx.stack_size := by
  induction n with
  | zero =>
    intro rows ctx ctx' rows' hlen hnd h
    match rows with
    | [] => simp [analyzeGo] at h; exact h.1.symm ▸ rfl
    | r :: rest => simp at hlen
  | succ n ih =>
    intro rows ctx ctx' rows' hlen hnd h
    match rows with
    | [] => simp [analyzeGo] at h; exact h.1.symm ▸ rfl
    | r :: rest =>
      have hr : r.category ≠ "Mutability" := hnd r (by simp)
      have hrest : ∀ x ∈ rest, x.category ≠ "Mutability" :=
        fun x hx => hnd x (by simp [hx])
      have hlen' : rest.length ≤ n := by simp only [List.length_cons] at hlen; omega
      rw [analyzeGo.eq_def] at h
      simp only [] at h
      rw [if_neg hr] at h
      split at h
      · split at h
        · simp only [exceptMap_ok] at h
          obtain ⟨⟨c, rs⟩, ha, hb⟩ := h
          simp only [Prod.mk.injEq] at hb
          obtain ⟨hb1, hb2⟩ := hb
          subst hb1
          have e1 := ih _ _ _ _ hlen' hrest ha
          exact e1
        · simp only [exceptMap_ok] at h
          obtain ⟨⟨c, rs⟩, ha, hb⟩ := h
          simp only [Prod.mk.injEq] at hb
          obtain ⟨hb1, hb2⟩ := hb
          subst hb1
          have e1 := ih _ _ _ _ hlen' hrest ha
          exact e1
      · split at h
        · split at h
          · simp at h
          · simp only [exceptMap_ok] at h
            obtain ⟨⟨c, rs⟩, ha, hb⟩ := h
            simp only [Prod.mk.injEq] at hb
            obtain ⟨hb1, hb2⟩ := hb
            subst hb1
            have e1 := ih _ _ _ _ hlen' hrest ha
            exact e1
        · simp only [exceptMap_ok] at h
          obtain ⟨⟨c, rs⟩, ha, hb⟩ := h
          simp only [Prod.mk.injEq] at hb
          obtain ⟨hb1, hb2⟩ := hb
          subst hb1
          have e1 := ih _ _ _ _ hlen' hrest ha
          exact e1

set_option maxHeartbeats 1000000 in
theorem analyzeGo_strs_nodup (n : Nat) :
    ∀ rows ctx ctx' rows', rows.length ≤ n →
      (ctx.string_literals.map Prod.fst).Nodup →
      analyzeGo ctx rows = Except.ok (ctx', rows') →
      (ctx'.string_literals.map Prod.fst).Nodup := by
  induction n with
  | zero =>
    intro rows ctx ctx' rows' hlen hndp h
    match rows with
    | [] =>
      simp [analyzeGo] at h
      exact h.1 ▸ hndp
    | r :: rest => simp at hlen
  | succ n ih =>
    intro rows ctx ctx' rows' hlen hndp h
    rcases rows with _ | ⟨r1, _ | ⟨r2, _ | ⟨r3, _ | ⟨r4, _ | ⟨r5, rest'⟩⟩⟩⟩⟩
    all_goals (rw [analyzeGo.eq_def] at h; simp only [] at h; repeat' split at h)
    all_goals (try (simp at h; exact h.1 ▸ hndp))
    all_goals (try (simp at h))
    all_goals
      (try (simp only [exceptMap_ok] at h; obtain ⟨⟨c, rs⟩, ha, hb⟩ := h;
            simp only [Prod.mk.injEq] at hb; obtain ⟨hb1, hb2⟩ := hb; subst hb1;
            refine ih _ _ _ _ ?_ ?_ ha;
            · simp only [List.length_cons] at hlen ⊢; omega
            · exact hndp))
    all_goals
      (rename_i hlk; simp only [exceptMap_ok] at h; obtain ⟨⟨c, rs⟩, ha, hb⟩ := h;
       simp only [Prod.mk.injEq] at hb; obtain ⟨hb1, hb2⟩ := hb; subst hb1;
       refine ih _ _ _ _ ?_ ?_ ha;
       · simp only [List.length_cons] at hlen ⊢
         omega
       · simp only [List.map_append, List.map_cons, List.map_nil]
         refine List.Nodup.append hndp (List.nodup_singleton _) ?_
         intro a ha2 hb2'
         simp at hb2'
         subst hb2'
         exact absurd ha2
           (lookup_none_not_mem _ (Option.not_isSome_iff_eq_none.mp hlk)))

theorem bindErrInv {α β : Type} {a : Except Err α} {f : α → Except Err β} {e : Err} :
    (a >>= f) = Except.error e ↔
      a = Except.error e ∨ ∃ v, a = Except.ok v ∧ f v = Except.error e := by
  cases a <;> simp [Bind.bind, Except.bind]

theorem bindOkInv {α β : Type} {a : Except Err α} {f : α → Except Err β} {b : β} :
    (a >>= f) = Except.ok b ↔ ∃ v, a = Except.ok v ∧ f v = Except.ok b := by
  cases a <;> simp [Bind.bind, Except.bind]

/-- C6: one run of the compiler is a pure function of the source text
alone: each run builds a fresh context (`Compiler.__init__` zeroes the
label counter and tables), so two compilations of the same source produce
byte-identical assembly output. -/
theorem compile_deterministic :
    ∀ (src : String) (out1 out2 : Except Err String),
      compile src = out1 → compile src = out2 → out1 = out2 := by
  intro src out1 out2 h1 h2
  rw [← h1, ← h2]

theorem compile_deterministic_witness :
    ∃ out : Except Err String,
      compile "let .x : num ; .x = 5 ; print .x ;" = out ∧ out = out :=
  ⟨_, rfl, compile_deterministic "let .x : num ; .x = 5 ; print .x ;" _ _ rfl rfl⟩

/-- C10: a token at statement position that begins no recognized construct
(not a declaration, assignment, print, when, loop or stop) is skipped
silently: no error, no emitted line, no context change; generation moves to
the next token. -/
theorem unrecognized_token_skipped :
    ∀ fuel ctx l i row, l.get? i = some row →
      row.category ≠ "Mutability" →
      ¬(row.category = "Variable" ∧ optLex (l.get? (i + 1)) = some "=") →
      row.lexeme ≠ "print" → row.lexeme ≠ "when" →
      row.lexeme ≠ "loop" → row.lexeme ≠ "stop" →
      genBF (fuel + 1) ctx l i = genBF fuel ctx l (i + 1) := by
  intro fuel ctx l i row hget h1 h2 h3 h4 h5 h6
  simp only [genBF, hget, h1, h2, h3, h4, h5, h6, if_neg, ite_false]

theorem unrecognized_token_skipped_witness :
    genBF 2 initCtx [⟨";", "Delimiter", 1, none⟩] 0 =
      genBF 1 initCtx [⟨";", "Delimiter", 1, none⟩] 1 :=
  unrecognized_token_skipped 1 initCtx [⟨";", "Delimiter", 1, none⟩] 0
    ⟨";", "Delimiter", 1, none⟩ rfl (by decide) (by simp) (by decide) (by decide)
    (by decide) (by decide)

/-- C7: the loop-label stack is restored by every completed block
generation (each loop pushes its fresh end-label before its body and pops
it after), so a generation run that starts with an empty stack ends with
an empty stack. -/
theorem loop_label_stack_invariant :
    (∀ fuel ctx l i ctx' asm, genBF fuel ctx l i = Except.ok (ctx', asm) →
        ctx'.loop_end_stack = ctx.loop_end_stack) ∧
    (∀ rows ctx ctx' asm, ctx.loop_end_stack = [] →
        genAssembly ctx rows = Except.ok (ctx', asm) → ctx'.loop_end_stack = []) :=
  ⟨fun fuel => genBF_stack fuel,
   fun _ _ _ _ h0 h => (genBF_stack _ _ _ _ _ _ h).trans h0⟩

theorem loop_label_stack_invariant_witness :
    ∃ p : Ctx × List String,
      genAssembly initCtx
        [⟨"loop", "Control", 1, none⟩, ⟨"\x7b", "Delimiter", 1, none⟩,
         ⟨"stop", "Control", 1, none⟩, ⟨";", "Delimiter", 1, none⟩,
         ⟨"\x7d", "Delimiter", 1, none⟩] = Except.ok p ∧
      p.1.loop_end_stack = [] :=
  ⟨(⟨[], [], 0, 2, []⟩,
    ["\n.L_LOOP_START_1:", "    jmp .L_LOOP_END_2", "    jmp .L_LOOP_START_1",
     ".L_LOOP_END_2:"]),
   rfl,
   loop_label_stack_invariant.2
     [⟨"loop", "Control", 1, none⟩, ⟨"\x7b", "Delimiter", 1, none⟩,
      ⟨"stop", "Control", 1, none⟩, ⟨";", "Delimiter", 1, none⟩,
      ⟨"\x7d", "Delimiter", 1, none⟩]
     initCtx ⟨[], [], 0, 2, []⟩
     ["\n.L_LOOP_START_1:", "    jmp .L_LOOP_END_2", "    jmp .L_LOOP_START_1",
      ".L_LOOP_END_2:"]
     rfl rfl⟩

/-- C4: a `stop` whose loop-label stack is empty fails with
`StopOutsideLoopError` at the token's line; with a nonempty stack it emits
a jump to the top label (the innermost enclosing loop's end label) and
continues; a `stop` nested in a conditional outside any loop still fails. -/
theorem stop_behavior :
    (∀ fuel ctx l i row, l.get? i = some row →
        row.lexeme = "stop" → row.category = "Control" →
        ctx.loop_end_stack = [] →
        genBF (fuel + 1) ctx l i =
          Except.error (Err.comp "'stop' can only be used inside a loop." row.line)) ∧
    (∀ fuel ctx l i row top rest, l.get? i = some row →
        row.lexeme = "stop" → row.category = "Control" →
        ctx.loop_end_stack = top :: rest →
        genBF (fuel + 1) ctx l i =
          withAsm [s!"    jmp {top}"] (genBF fuel ctx l (i + 2))) ∧
    compileLines "let .x : num ; .x = 1 ; when .x == 1 \x7b stop ; \x7d" =
      Except.error (Err.comp "'stop' can only be used inside a loop." 1) := by
  refine ⟨?_, ?_, rfl⟩
  · intro fuel ctx l i row hget hlex hcat hstk
    simp only [genBF, hget, hlex, hcat, hstk]
    simp
  · intro fuel ctx l i row top rest hget hlex hcat hstk
    simp only [genBF, hget, hlex, hcat, hstk]
    simp

theorem stop_behavior_witness :
    genBF 1 initCtx [⟨"stop", "Control", 7, none⟩] 0 =
      Except.error (Err.comp "'stop' can only be used inside a loop." 7) :=
  stop_behavior.1 0 initCtx [⟨"stop", "Control", 7, none⟩] 0
    ⟨"stop", "Control", 7, none⟩ rfl rfl rfl rfl


/-- C5: the analyzer's frame size is always a multiple of 16 and is 0 when
there are no declarations; the prologue's reservation line subtracts
exactly that size (and is the empty line when the size is 0). -/
theorem frame_size_alignment :
    (∀ rows ctx' rows', analyze rows = Except.ok (ctx', rows') →
        16 ∣ ctx'.stack_size ∧
        ((∀ r ∈ rows, r.category ≠ "Mutability") → ctx'.stack_size = 0)) ∧
    (∀ k : Nat, 0 < k → s!"    subq    ${k}, %rsp" ∈ mkPrologue k) ∧
    (mkPrologue 0).getLast? = some "" ∧
    (∀ src ls, compileLines src = Except.ok ls →
        ∃ k, 16 ∣ k ∧ (if 0 < k then s!"    subq    ${k}, %rsp" else "") ∈ ls) := by
  refine ⟨?_, ?_, rfl, ?_⟩
  · intro rows ctx' rows' h
    simp only [analyze, exceptMap_ok] at h
    obtain ⟨⟨c, rs⟩, ha, hb⟩ := h
    simp only [Prod.mk.injEq] at hb
    obtain ⟨hb1, hb2⟩ := hb
    subst hb1
    refine ⟨roundUp16_dvd _, ?_⟩
    intro hnd
    have h0 := analyzeGo_stack_no_decl rows.length rows initCtx c rs le_rfl hnd ha
    simp only [initCtx] at h0
    show roundUp16 c.stack_size = 0
    rw [h0]
    rfl
  · intro k hk
    simp [mkPrologue, hk]
  · intro src ls h
    simp only [compileLines, bindOkInv] at h
    obtain ⟨toks, ht, h⟩ := h
    obtain ⟨rows, hr, h⟩ := h
    obtain ⟨⟨ctx, rows'⟩, ha, h⟩ := h
    obtain ⟨⟨cg, text⟩, hg, h⟩ := h
    simp only [pure, Except.pure] at h
    cases h
    refine ⟨ctx.stack_size, ?_, ?_⟩
    · simp only [analyze, exceptMap_ok] at ha
      obtain ⟨⟨c, rs⟩, ha2, hb⟩ := ha
      simp only [Prod.mk.injEq] at hb
      obtain ⟨hb1, hb2⟩ := hb
      rw [← hb1]
      exact roundUp16_dvd _
    · simp [mkPrologue, List.mem_append]

theorem frame_size_alignment_witness :
    (∃ p : Ctx × List Row,
        analyze [⟨"let", "Mutability", 1, none⟩, ⟨".x", "Variable", 1, none⟩,
                 ⟨":", "Delimiter", 1, none⟩, ⟨"num", "Type", 1, none⟩,
                 ⟨";", "Delimiter", 1, none⟩] = Except.ok p ∧
        16 ∣ p.1.stack_size) ∧
    ("    subq    $16, %rsp" ∈ mkPrologue 16) :=
  ⟨⟨_, rfl,
    (frame_size_alignment.1
      [⟨"let", "Mutability", 1, none⟩, ⟨".x", "Variable", 1, none⟩,
       ⟨":", "Delimiter", 1, none⟩, ⟨"num", "Type", 1, none⟩,
       ⟨";", "Delimiter", 1, none⟩] _ _ rfl).1⟩,
   frame_size_alignment.2.1 16 (by decide)⟩

/-- C8: every successful compilation's line list begins with the data
section: one `label: .string "text"` directive per registered string
constant (whose keys are pairwise distinct), followed by the fixed numeric
format constant; the `.section .rodata` header appears exactly when at
least one string was registered. -/
theorem data_section_layout :
    ∀ src ls, compileLines src = Except.ok ls →
      ∃ strs rest, ls = mkDataSection strs ++ rest ∧
        (strs.map Prod.fst).Nodup ∧
        mkDataSection strs =
          (if strs.isEmpty then [] else
            ".section .rodata" ::
              strs.map (fun p => s!"{p.2}: .string {p.1}")) ++ [numFmtLine] := by
  intro src ls h
  simp only [compileLines, bindOkInv] at h
  obtain ⟨toks, ht, h⟩ := h
  obtain ⟨rows, hr, h⟩ := h
  obtain ⟨⟨ctx, rows'⟩, ha, h⟩ := h
  obtain ⟨⟨cg, text⟩, hg, h⟩ := h
  simp only [pure, Except.pure] at h
  cases h
  refine ⟨ctx.string_literals, mkPrologue ctx.stack_size ++ text ++ mainEpilogue,
    ?_, ?_, rfl⟩
  · simp [List.append_assoc]
  simp only [analyze, exceptMap_ok] at ha
  obtain ⟨⟨c, rs⟩, ha2, hb⟩ := ha
  simp only [Prod.mk.injEq] at hb
  obtain ⟨hb1, hb2⟩ := hb
  rw [← hb1]
  exact analyzeGo_strs_nodup rows.length rows initCtx c rs le_rfl (by simp [initCtx]) ha2

theorem data_section_layout_witness :
    ∃ strs rest,
      ([".section .rodata", ".L_STR_1: .string \"hi\"",
        ".LC_NUM_FMT: .string \"%lld\\n\"", ".section .text", ".globl main",
        "\nmain:", "    pushq   %rbp", "    movq    %rsp, %rbp", "",
        "\n    # Katappa: print \"hi\";", "    leaq    .L_STR_1(%rip), %rcx",
        "    subq    $32, %rsp", "    movq    $0, %rax", "    call    printf",
        "    addq    $32, %rsp", "\n    movq    $0, %rax", "    leave",
        "    ret"] : List String) = mkDataSection strs ++ rest ∧
      (strs.map Prod.fst).Nodup ∧
      mkDataSection strs =
        (if strs.isEmpty then [] else
          ".section .rodata" ::
            strs.map (fun p => s!"{p.2}: .string {p.1}")) ++ [numFmtLine] :=
  data_section_layout "print \"hi\" ;" _ rfl

theorem when_none_general :
    ∀ fuel ctx l i row var1 cmp op2 ctx' asm,
      l.get? i = some row → row.lexeme = "when" → row.category = "Control" →
      l.get? (i + 1) = some var1 → var1.mem_location = none →
      l.get? (i + 2) = some cmp → l.get? (i + 3) = some op2 →
      genBF (fuel + 1) ctx l i = Except.ok (ctx', asm) →
      asm.get? 1 = some "    movq    None, %rax" := by
  intro fuel ctx l i row var1 cmp op2 ctx' asm hget hlex hcat hv1 hloc hcmp hop2 hok
  simp only [genBF, hget, hlex, hcat, hv1, hcmp, hop2, hloc, locStr] at hok
  simp at hok
  repeat' split at hok
  all_goals (try (simp at hok))
  all_goals
    (obtain ⟨c, a, hr, hp⟩ := withAsm_ok.mp hok;
     injection hp with hp1 hp2; subst hp2; rfl)

theorem when_negation_general :
    ∀ fuel ctx l i row var1 cmp op2 j eLbl ctx' asm,
      l.get? i = some row → row.lexeme = "when" → row.category = "Control" →
      l.get? (i + 1) = some var1 → l.get? (i + 2) = some cmp →
      l.get? (i + 3) = some op2 → op2.category = "NumericLiteral" →
      jump_map cmp.lexeme = some j →
      eLbl = (getLabel ctx "ELSE").1 →
      genBF (fuel + 1) ctx l i = Except.ok (ctx', asm) →
      asm.get? 2 = some s!"    cmpq    ${op2.lexeme}, %rax" ∧
      asm.get? 3 = some s!"    {j} {eLbl}" := by
  intro fuel ctx l i row var1 cmp op2 j eLbl ctx' asm hget hlex hcat hv1 hcmp hop2 hnum hj heL hok
  subst heL
  simp only [genBF, hget, hlex, hcat, hv1, hcmp, hop2, hnum, hj] at hok
  simp at hok
  repeat' split at hok
  all_goals (try (simp at hok))
  all_goals
    (obtain ⟨c, a, hr, hp⟩ := withAsm_ok.mp hok;
     injection hp with hp1 hp2; subst hp2;
     constructor <;> simp)

/-- C1: the negated-branch table maps each of the six comparators exactly
as specified (equal branches with jump-if-not-equal, not-equal with
jump-if-equal, greater with jump-if-less-or-equal, less with
jump-if-greater-or-equal, greater-or-equal with jump-if-less,
less-or-equal with jump-if-greater), is exhaustive over exactly those six,
and the generated `when` code places the comparison and then the negated
conditional branch to the freshly generated else-label. -/
theorem when_negated_branch_mapping :
    (jump_map "==" = some "jne" ∧ jump_map "!=" = some "je" ∧
     jump_map ">" = some "jle" ∧ jump_map "<" = some "jge" ∧
     jump_map ">=" = some "jl" ∧ jump_map "<=" = some "jg") ∧
    (∀ s j, jump_map s = some j →
        s = "==" ∨ s = "!=" ∨ s = ">" ∨ s = "<" ∨ s = ">=" ∨ s = "<=") ∧
    (∀ ctx : Ctx, (getLabel ctx "ELSE").1 = s!".L_ELSE_{ctx.label_count + 1}") ∧
    (∀ fuel ctx l i row var1 cmp op2 j eLbl ctx' asm,
        l.get? i = some row → row.lexeme = "when" → row.category = "Control" →
        l.get? (i + 1) = some var1 → l.get? (i + 2) = some cmp →
        l.get? (i + 3) = some op2 → op2.category = "NumericLiteral" →
        jump_map cmp.lexeme = some j →
        eLbl = (getLabel ctx "ELSE").1 →
        genBF (fuel + 1) ctx l i = Except.ok (ctx', asm) →
        asm.get? 2 = some s!"    cmpq    ${op2.lexeme}, %rax" ∧
        asm.get? 3 = some s!"    {j} {eLbl}") := by
  refine ⟨⟨rfl, rfl, rfl, rfl, rfl, rfl⟩, ?_, fun _ => rfl, when_negation_general⟩
  intro s j h
  simp only [jump_map] at h
  split_ifs at h with h1 h2 h3 h4 h5 h6
  · exact Or.inl h1
  · exact Or.inr (Or.inl h2)
  · exact Or.inr (Or.inr (Or.inl h3))
  · exact Or.inr (Or.inr (Or.inr (Or.inl h4)))
  · exact Or.inr (Or.inr (Or.inr (Or.inr (Or.inl h5))))
  · exact Or.inr (Or.inr (Or.inr (Or.inr (Or.inr h6))))

theorem when_negated_branch_mapping_witness :
    ∃ p : Ctx × List String,
      genBF 7 initCtx
        [⟨"when", "Control", 1, none⟩, ⟨".x", "Variable", 1, some "-8(%rbp)"⟩,
         ⟨"==", "Operator", 1, none⟩, ⟨"1", "NumericLiteral", 1, none⟩,
         ⟨"\x7b", "Delimiter", 1, none⟩, ⟨"\x7d", "Delimiter", 1, none⟩] 0 =
        Except.ok p ∧
      p.2.get? 2 = some "    cmpq    $1, %rax" ∧
      p.2.get? 3 = some "    jne .L_ELSE_1" :=
  ⟨(⟨[], [], 0, 2, []⟩,
    ["\n    # Katappa: when .x == 1 \x7b...\x7d", "    movq    -8(%rbp), %rax",
     "    cmpq    $1, %rax", "    jne .L_ELSE_1", "    jmp .L_END_WHEN_2",
     ".L_ELSE_1:", ".L_END_WHEN_2:"]),
   rfl,
   when_negated_branch_mapping.2.2.2 6 initCtx
     [⟨"when", "Control", 1, none⟩, ⟨".x", "Variable", 1, some "-8(%rbp)"⟩,
      ⟨"==", "Operator", 1, none⟩, ⟨"1", "NumericLiteral", 1, none⟩,
      ⟨"\x7b", "Delimiter", 1, none⟩, ⟨"\x7d", "Delimiter", 1, none⟩] 0
     ⟨"when", "Control", 1, none⟩ ⟨".x", "Variable", 1, some "-8(%rbp)"⟩
     ⟨"==", "Operator", 1, none⟩ ⟨"1", "NumericLiteral", 1, none⟩ "jne"
     ".L_ELSE_1" ⟨[], [], 0, 2, []⟩
     ["\n    # Katappa: when .x == 1 \x7b...\x7d", "    movq    -8(%rbp), %rax",
      "    cmpq    $1, %rax", "    jne .L_ELSE_1", "    jmp .L_END_WHEN_2",
      ".L_ELSE_1:", ".L_END_WHEN_2:"]
     rfl rfl rfl rfl rfl rfl rfl rfl rfl rfl⟩

/-- C9: a `when` whose first operand has no resolved storage location (for
example a numeric literal) raises no error: the generator renders Python's
`None` placeholder as the first comparison operand, and a full compile of
`when 5 == .x { }` succeeds with `movq    None, %rax` in its output. -/
theorem when_nonvariable_first_operand :
    (∀ fuel ctx l i row var1 cmp op2 ctx' asm,
        l.get? i = some row → row.lexeme = "when" → row.category = "Control" →
        l.get? (i + 1) = some var1 → var1.mem_location = none →
        l.get? (i + 2) = some cmp → l.get? (i + 3) = some op2 →
        genBF (fuel + 1) ctx l i = Except.ok (ctx', asm) →
        asm.get? 1 = some "    movq    None, %rax") ∧
    (∃ ls, compileLines "let .x : num ; when 5 == .x \x7b \x7d" = Except.ok ls ∧
        "    movq    None, %rax" ∈ ls) := by
  refine ⟨when_none_general,
    ⟨[".LC_NUM_FMT: .string \"%lld\\n\"", ".section .text", ".globl main",
      "\nmain:", "    pushq   %rbp", "    movq    %rsp, %rbp",
      "    subq    $16, %rsp", "\n    # Katappa: when 5 == .x \x7b...\x7d",
      "    movq    None, %rax", "    cmpq    -8(%rbp), %rax", "    jne .L_ELSE_1",
      "    jmp .L_END_WHEN_2", ".L_ELSE_1:", ".L_END_WHEN_2:",
      "\n    movq    $0, %rax", "    leave", "    ret"], rfl, by simp⟩⟩

theorem when_nonvariable_first_operand_witness :
    ∃ p : Ctx × List String,
      genBF 7 initCtx
        [⟨"when", "Control", 3, none⟩, ⟨"5", "NumericLiteral", 3, none⟩,
         ⟨"==", "Operator", 3, none⟩, ⟨"9", "NumericLiteral", 3, none⟩,
         ⟨"\x7b", "Delimiter", 3, none⟩, ⟨"\x7d", "Delimiter", 3, none⟩] 0 =
        Except.ok p ∧
      p.2.get? 1 = some "    movq    None, %rax" :=
  ⟨(⟨[], [], 0, 2, []⟩,
    ["\n    # Katappa: when 5 == 9 \x7b...\x7d", "    movq    None, %rax",
     "    cmpq    $9, %rax", "    jne .L_ELSE_1", "    jmp .L_END_WHEN_2",
     ".L_ELSE_1:", ".L_END_WHEN_2:"]),
   rfl,
   when_nonvariable_first_operand.1 6 initCtx
     [⟨"when", "Control", 3, none⟩, ⟨"5", "NumericLiteral", 3, none⟩,
      ⟨"==", "Operator", 3, none⟩, ⟨"9", "NumericLiteral", 3, none⟩,
      ⟨"\x7b", "Delimiter", 3, none⟩, ⟨"\x7d", "Delimiter", 3, none⟩] 0
     ⟨"when", "Control", 3, none⟩ ⟨"5", "NumericLiteral", 3, none⟩
     ⟨"==", "Operator", 3, none⟩ ⟨"9", "NumericLiteral", 3, none⟩
     ⟨[], [], 0, 2, []⟩
     ["\n    # Katappa: when 5 == 9 \x7b...\x7d", "    movq    None, %rax",
      "    cmpq    $9, %rax", "    jne .L_ELSE_1", "    jmp .L_END_WHEN_2",
      ".L_ELSE_1:", ".L_END_WHEN_2:"]
     rfl rfl rfl rfl rfl rfl rfl rfl⟩

/-- The spec's error taxonomy, as message families: `LexError`,
`UnknownSymbolError`, `MalformedDeclarationError` / `DuplicateDeclarationError`
/ `UndeclaredVariableError` (`anaMsg`), and the generator's
`InvalidExpressionError` / `InvalidConditionError` / `StopOutsideLoopError` /
`UnmatchedBraceError` (`genMsg`). -/
def taxMsg (m : String) : Prop :=
  lexMsg m ∨ (∃ s : String, m = s!"Unknown symbol '{s}'") ∨ anaMsg m ∨ genMsg m

/-- An error belonging to the taxonomy (a `CompilationError` with one of
the taxonomy messages); Python `IndexError`/`KeyError` escapes are not in it. -/
def isTaxErr : Err → Prop
  | .comp m _ => taxMsg m
  | _ => False

/-- C2 refutation: with the right-hand side `.y +` ending the input (a
shape that is neither a literal nor `operand operator operand`), the
compiler aborts with an uncaught index error, not with
`InvalidExpressionError` at the statement's line; and a numeric-literal
first operand (`.x = 5 + 3 ;`) is not compiled as a binary expression nor
rejected: the literal is stored and the `+ 3` is silently skipped. -/
theorem assignment_rhs_counterexample :
    compileLines "let .x : num ; let .y : num ; .x = .y +" =
      Except.error Err.indexError ∧
    Err.indexError ≠ Err.comp "Invalid assignment expression." 1 ∧
    ¬ isTaxErr Err.indexError ∧
    compileLines "let .x : num ; .x = 5 + 3 ;" =
      Except.ok
        [".LC_NUM_FMT: .string \"%lld\\n\"", ".section .text", ".globl main",
         "\nmain:", "    pushq   %rbp", "    movq    %rsp, %rbp",
         "    subq    $16, %rsp", "\n    # Katappa: .x = ...",
         "    movq    $5, -8(%rbp)", "\n    movq    $0, %rax", "    leave",
         "    ret"] :=
  ⟨rfl, by simp, fun h => h, rfl⟩

/-- C2 amended: for an assignment (Variable then `=`), a numeric-literal
right-hand side head is stored directly (any following tokens are left to
be scanned as further statements, not rejected); a Variable head must be
followed by an Operator-category token, else `InvalidExpressionError` at
the statement's line; a second operand of any other category fails with
`InvalidExpressionError` at the operator's line; and a missing right-hand
side or missing second operand at end of input aborts with an uncaught
index error outside the taxonomy. -/
theorem assignment_rhs_amended :
    (∀ fuel ctx l i row val, l.get? i = some row →
        row.category = "Variable" → optLex (l.get? (i + 1)) = some "=" →
        l.get? (i + 2) = some val → val.category = "NumericLiteral" →
        genBF (fuel + 1) ctx l i =
          withAsm [s!"\n    # Katappa: {row.lexeme} = ...",
                   s!"    movq    ${val.lexeme}, {locStr row.mem_location}"]
            (genBF fuel ctx l (i + 3))) ∧
    (∀ fuel ctx l i row val, l.get? i = some row →
        row.category = "Variable" → optLex (l.get? (i + 1)) = some "=" →
        l.get? (i + 2) = some val → val.category ≠ "NumericLiteral" →
        ¬(val.category = "Variable" ∧ optCat (l.get? (i + 3)) = some "Operator") →
        genBF (fuel + 1) ctx l i =
          Except.error (Err.comp "Invalid assignment expression." row.line)) ∧
    (∀ fuel ctx l i row val op op2, l.get? i = some row →
        row.category = "Variable" → optLex (l.get? (i + 1)) = some "=" →
        l.get? (i + 2) = some val → val.category = "Variable" →
        l.get? (i + 3) = some op → op.category = "Operator" →
        l.get? (i + 4) = some op2 →
        op2.category ≠ "Variable" → op2.category ≠ "NumericLiteral" →
        genBF (fuel + 1) ctx l i =
          Except.error
            (Err.comp "Invalid right-hand side in arithmetic expression." op.line)) ∧
    (∀ fuel ctx l i row val op, l.get? i = some row →
        row.category = "Variable" → optLex (l.get? (i + 1)) = some "=" →
        l.get? (i + 2) = some val → val.category = "Variable" →
        l.get? (i + 3) = some op → op.category = "Operator" →
        l.get? (i + 4) = none →
        genBF (fuel + 1) ctx l i = Except.error Err.indexError) ∧
    (∀ fuel ctx l i row, l.get? i = some row →
        row.category = "Variable" → optLex (l.get? (i + 1)) = some "=" →
        l.get? (i + 2) = none →
        genBF (fuel + 1) ctx l i = Except.error Err.indexError) := by
  refine ⟨?_, ?_, ?_, ?_, ?_⟩
  · intro fuel ctx l i row val hget hcat hnext hval hnum
    simp only [genBF, hget, hcat, hnext, hval, hnum]
    simp [withAsm]
  · intro fuel ctx l i row val hget hcat hnext hval hnum hnb
    simp only [genBF, hget, hcat, hnext, hval, hnum, hnb]
    simp
  · intro fuel ctx l i row val op op2 hget hcat hnext hval hvv hop hopc hop2 hb1 hb2
    have hoc : optCat (some op) = some "Operator" := congrArg some hopc
    simp only [genBF, hget, hcat, hnext, hval, hvv, hop, hoc, hop2, hb1, hb2]
    simp [hb1, hb2]
  · intro fuel ctx l i row val op hget hcat hnext hval hvv hop hopc hnone
    have hoc : optCat (some op) = some "Operator" := congrArg some hopc
    simp only [genBF, hget, hcat, hnext, hval, hvv, hop, hoc, hnone]
    simp
  · intro fuel ctx l i row hget hcat hnext hnone
    simp only [genBF, hget, hcat, hnext, hnone]
    simp

theorem assignment_rhs_amended_witness :
    genBF 1 initCtx
      [⟨".x", "Variable", 2, some "-8(%rbp)"⟩, ⟨"=", "Operator", 2, none⟩,
       ⟨"\"s\"", "StringLiteral", 2, none⟩, ⟨";", "Delimiter", 2, none⟩] 0 =
      Except.error (Err.comp "Invalid assignment expression." 2) :=
  assignment_rhs_amended.2.1 0 initCtx
    [⟨".x", "Variable", 2, some "-8(%rbp)"⟩, ⟨"=", "Operator", 2, none⟩,
     ⟨"\"s\"", "StringLiteral", 2, none⟩, ⟨";", "Delimiter", 2, none⟩] 0
    ⟨".x", "Variable", 2, some "-8(%rbp)"⟩ ⟨"\"s\"", "StringLiteral", 2, none⟩
    rfl rfl rfl rfl (by decide) (by decide)

/-- C3 refutation: `print` at end of input is a malformed print shape, yet
compilation aborts with an uncaught index error (outside the taxonomy),
and `print 5 ;` is a malformed print shape that is not detected at all:
the call is emitted with no argument setup. -/
theorem error_taxonomy_counterexample :
    compileLines "let .x : num ; print" = Except.error Err.indexError ∧
    ¬ isTaxErr Err.indexError ∧
    compileLines "print 5 ;" =
      Except.ok
        [".LC_NUM_FMT: .string \"%lld\\n\"", ".section .text", ".globl main",
         "\nmain:", "    pushq   %rbp", "    movq    %rsp, %rbp", "",
         "\n    # Katappa: print 5;", "    subq    $32, %rsp",
         "    movq    $0, %rax", "    call    printf", "    addq    $32, %rsp",
         "\n    movq    $0, %rax", "    leave", "    ret"] :=
  ⟨rfl, fun h => h, rfl⟩

/-- C3 amended: every compilation failure is either a `CompilationError`
carrying one of the taxonomy's messages (with the triggering line), or one
of the two uncaught Python escapes (`IndexError` from running past the end
of the input, `KeyError` from an unknown `when` comparator or an
unregistered string). -/
theorem compile_failure_classification :
    ∀ src e, compileLines src = Except.error e →
      (∃ m ln, e = Err.comp m ln ∧ taxMsg m) ∨
      e = Err.indexError ∨ e = Err.keyError := by
  intro src e h
  simp only [compileLines, bindErrInv, bindOkInv] at h
  rcases h with h | ⟨toks, ht, h⟩
  · rcases scanT_err_taxonomy _ _ _ _ h with ⟨m, ln, rfl, hm⟩ | rfl
    · exact Or.inl ⟨m, ln, rfl, Or.inl hm⟩
    · exact absurd h (scanT_no_fuelOut _ _ _ (Nat.lt_succ_self _))
  · rcases h with h | ⟨rows, hr, h⟩
    · obtain ⟨s, ln, rfl⟩ := categorize_err_taxonomy _ _ h
      exact Or.inl ⟨_, ln, rfl, Or.inr (Or.inl ⟨s, rfl⟩)⟩
    · rcases h with h | ⟨⟨ctx, rows'⟩, ha, h⟩
      · simp only [analyze, exceptMap_err] at h
        obtain ⟨m, ln, rfl, hm⟩ :=
          analyzeGo_err_taxonomy rows.length rows initCtx e le_rfl h
        exact Or.inl ⟨m, ln, rfl, Or.inr (Or.inr (Or.inl hm))⟩
      · rcases h with h | ⟨⟨cg, text⟩, hg, h⟩
        · simp only [genAssembly] at h
          rcases genBF_err_taxonomy _ _ _ _ _ h with hg | rfl
          · cases e with
            | comp m ln => exact Or.inl ⟨m, ln, rfl, Or.inr (Or.inr (Or.inr hg))⟩
            | indexError => exact Or.inr (Or.inl rfl)
            | keyError => exact Or.inr (Or.inr rfl)
            | fuelOut => cases hg
          · exact absurd h (genBF_no_fuelOut _ _ _ _ (by omega))
        · simp only [pure, Except.pure] at h
          cases h

theorem compile_failure_classification_witness :
    (∃ m ln, Err.comp "Incomplete variable declaration." 1 = Err.comp m ln ∧ taxMsg m) ∨
    Err.comp "Incomplete variable declaration." 1 = Err.indexError ∨
    Err.comp "Incomplete variable declaration." 1 = Err.keyError :=
  compile_failure_classification "let .x"
    (Err.comp "Incomplete variable declaration." 1) rfl
